import Mathlib

/-!
Shallow embedding of the tsuba RDG persistence layer
(src/libtsuba/src/RDG.cpp) and the typed PropertyGraph facade
(galois/graphs/PropertyGraph.h), with theorems settling the claims
about commit-protocol error handling, incremental property storage,
partition loading and typed-view binding.

External collaborators (arrow serialization, the blob store, the naming
service, the communication backend) are embedded as explicit outcome
values carried by environment records: each fallible call the source
makes is represented by the result the environment assigns to it, and
the control flow of the embedded functions is transcribed from the
source.
-/

namespace Katana

/-- Error codes of the embedded tsuba operations (tsuba/Errors.h as used by
src/libtsuba/src/RDG.cpp). `Indeterminate` stands for the unspecified value
obtained by reading the error slot of a successful galois Result, which the
source does at RDG.cpp:385. -/
inductive ErrorCode where
  | InvalidArgument
  | ArrowError
  | IOErr
  | NamingConflict
  | PropertyNotFound
  | TypeError
  | Indeterminate
deriving DecidableEq, Repr

/-- Galois result type: success with a value or an error code. -/
abbrev GResult (α : Type) := Except ErrorCode α

deriving instance DecidableEq for Except

/-- Reads the error slot of a result, as the C++ expression res.error() does.
On a successful result the C++ value is unspecified; it is embedded as the
designated junk value `Indeterminate`. -/
def errorOf {α : Type} : GResult α → ErrorCode
  | .error e => e
  | .ok _ => .Indeterminate

/-- PropStorageInfo (tsuba): per-column metadata — attribute name, on-disk
path (empty while not yet persisted) and persist flag. -/
structure PropStorageInfo where
  name : String
  path : String
  persist : Bool
deriving DecidableEq, Repr

/-- One arrow column of an in-memory table: its schema field name together
with the outcome the environment assigns to StoreArrowArrayAtName on this
column — the base name of the freshly generated unique file on success, or an
error on serialization or blob-store failure. -/
structure Column where
  fieldName : String
  storeOutcome : GResult String
deriving DecidableEq, Repr

/-- Special partition property name prefix (RDG.cpp:37). -/
def kMirrorNodesPropName : String := "mirror_nodes"

/-- Special partition property name prefix (RDG.cpp:38). -/
def kMasterNodesPropName : String := "master_nodes"

/-- Special partition property exact name (RDG.cpp:39). -/
def kLocalToTGlobalPropName : String := "local_to_global_vector"

/-- MirrorPropName (RDG.cpp:102-105). -/
def MirrorPropName (i : Nat) : String := kMirrorNodesPropName ++ "_" ++ toString i

/-- MasterPropName (RDG.cpp:107-110). -/
def MasterPropName (i : Nat) : String := kMasterNodesPropName ++ "_" ++ toString i

/-- StoreArrowArrayAtName (RDG.cpp:59-100): serializes the column as a
single-column table, enqueues the write on the WriteGroup and returns the
file's base name. Serialization success and the random file base name are
the environment choices carried by the column's storeOutcome; the write
group is embedded as the list of column names passed to StartStore, in
order. -/
def storeArrowArrayAtName (col : Column) (name : String) (wg : List String) :
    GResult String × List String :=
  match col.storeOutcome with
  | .error e => (.error e, wg)
  | .ok base => (.ok base, wg ++ [name])

/-- First loop of WriteTable (RDG.cpp:119-131): walk the properties (paired
positionally with the table's columns, as the source walks index i), store
every property that is persisted and has an empty path, and collect the
returned base names. -/
def writeTableAux : List (Column × PropStorageInfo) → List String →
    GResult (List String) × List String
  | [], wg => (.ok [], wg)
  | (c, p) :: rest, wg =>
    if p.persist = true ∧ p.path = "" then
      match storeArrowArrayAtName c (if p.name = "" then c.fieldName else p.name) wg with
      | (.error e, wg') => (.error e, wg')
      | (.ok base, wg') =>
        match writeTableAux rest wg' with
        | (.error e, wg'') => (.error e, wg'')
        | (.ok paths, wg'') => (.ok (base :: paths), wg'')
    else
      writeTableAux rest wg

/-- Second loop of WriteTable (RDG.cpp:138-144): copy the property list and
fill in the next collected path for every entry that is persisted and not yet
written. When called from writeTable the path list never runs out, since the
first loop collected exactly one path per such entry; the empty case is
therefore unreachable there and leaves the entry unchanged. -/
def assignPaths : List PropStorageInfo → List String → List PropStorageInfo
  | [], _ => []
  | p :: ps, paths =>
    if p.persist = true ∧ p.path = "" then
      match paths with
      | [] => p :: assignPaths ps []
      | q :: qs => { p with path := q } :: assignPaths ps qs
    else
      p :: assignPaths ps paths

/-- WriteTable (RDG.cpp:112-147). The table is the list of its columns,
positionally aligned with the property list exactly as the source's loop
index i aligns them. -/
def writeTable (cols : List Column) (props : List PropStorageInfo)
    (wg : List String) : GResult (List PropStorageInfo) × List String :=
  match writeTableAux (cols.zip props) wg with
  | (.error e, wg') => (.error e, wg')
  | (.ok paths, wg') =>
    if paths = [] then (.ok props, wg')
    else (.ok (assignPaths props paths), wg')

/-- Names, in property-list order, of the properties WriteTable is expected
to store: those that are persisted and have an empty path, stored under the
property's recorded name, or the schema field name when the recorded name is
empty. -/
def storedNames (l : List (Column × PropStorageInfo)) : List String :=
  (l.filter (fun cp => decide (cp.2.persist = true ∧ cp.2.path = ""))).map
    (fun cp => if cp.2.name = "" then cp.1.fieldName else cp.2.name)

/-- Relation between one column/property input pair and the corresponding
output entry of WriteTable: a dirty persisted property carries the base name
returned by storing its column, every other property is returned unchanged. -/
def writeTableEntryRel (cp : Column × PropStorageInfo) (r : PropStorageInfo) : Prop :=
  (cp.2.persist = true ∧ cp.2.path = "" ∧
    ∃ base, cp.1.storeOutcome = .ok base ∧ r = { cp.2 with path := base }) ∨
  (¬(cp.2.persist = true ∧ cp.2.path = "") ∧ r = cp.2)

theorem assignPaths_nil (props : List PropStorageInfo) :
    assignPaths props [] = props := by
  induction props with
  | nil => rfl
  | cons p ps ih =>
    by_cases h : p.persist = true ∧ p.path = "" <;>
      simp [assignPaths, h, ih]

theorem writeTableAux_spec (l : List (Column × PropStorageInfo))
    (wg wg' : List String) (paths : List String)
    (hok : writeTableAux l wg = (.ok paths, wg')) :
    wg' = wg ++ storedNames l ∧
    List.Forall₂ writeTableEntryRel l (assignPaths (l.map Prod.snd) paths) := by
  induction l generalizing wg wg' paths with
  | nil =>
    simp only [writeTableAux] at hok
    obtain ⟨h1, h2⟩ := Prod.mk.injEq .. ▸ hok
    cases h1
    subst h2
    simp [storedNames, assignPaths]
  | cons cp rest ih =>
    obtain ⟨c, p⟩ := cp
    by_cases h : p.persist = true ∧ p.path = ""
    · cases hco : c.storeOutcome with
      | error e =>
        simp only [writeTableAux, if_pos h, storeArrowArrayAtName, hco] at hok
        exact absurd (congrArg Prod.fst hok) (by simp)
      | ok base =>
        simp only [writeTableAux, if_pos h, storeArrowArrayAtName, hco] at hok
        cases haux : writeTableAux rest (wg ++ [if p.name = "" then c.fieldName else p.name]) with
        | mk fst snd =>
          rw [haux] at hok
          cases fst with
          | error e =>
            exact absurd (congrArg Prod.fst hok) (by simp)
          | ok paths' =>
            simp only [Prod.mk.injEq, Except.ok.injEq] at hok
            obtain ⟨h1, h2⟩ := hok
            subst h1
            subst h2
            obtain ⟨hwg, hrel⟩ := ih _ _ _ haux
            constructor
            · rw [hwg]
              simp [storedNames, h, List.append_assoc]
            · simp only [List.map_cons, assignPaths, if_pos h]
              exact List.Forall₂.cons
                (Or.inl ⟨h.1, h.2, base, hco, rfl⟩) hrel
    · simp only [writeTableAux, if_neg h] at hok
      obtain ⟨hwg, hrel⟩ := ih _ _ _ hok
      constructor
      · rw [hwg]
        simp [storedNames, h]
      · simp only [List.map_cons, assignPaths, if_neg h]
        exact List.Forall₂.cons (Or.inr ⟨h, rfl⟩) hrel

theorem writeTable_eq_of_aux (cols : List Column) (props : List PropStorageInfo)
    (wg wg' : List String) (paths : List String)
    (haux : writeTableAux (cols.zip props) wg = (.ok paths, wg')) :
    writeTable cols props wg = (.ok (assignPaths props paths), wg') := by
  unfold writeTable
  rw [haux]
  by_cases hp : paths = []
  · subst hp
    simp [assignPaths_nil]
  · simp [hp]

/-- C3: WriteTable stores exactly the persisted, empty-path properties —
the write group gains exactly their names, in property-list order — and the
returned property list sets each such property's path to the base name
StoreArrowArrayAtName returned for its column, while every other property is
returned unchanged. -/
theorem writeTable_stores_dirty_props
    (cols : List Column) (props : List PropStorageInfo)
    (wg wg' : List String) (res : List PropStorageInfo)
    (hlen : cols.length = props.length)
    (hok : writeTable cols props wg = (.ok res, wg')) :
    wg' = wg ++ storedNames (cols.zip props) ∧
    List.Forall₂ writeTableEntryRel (cols.zip props) res := by
  cases haux : writeTableAux (cols.zip props) wg with
  | mk fst snd =>
    cases fst with
    | error e =>
      have hbad : writeTable cols props wg = (.error e, snd) := by
        unfold writeTable
        rw [haux]
      rw [hbad] at hok
      exact absurd (congrArg Prod.fst hok) (by simp)
    | ok paths =>
      have hgoal := writeTableAux_spec _ _ _ _ haux
      have hmap : (cols.zip props).map Prod.snd = props := by
        rw [List.map_snd_zip]
        exact le_of_eq hlen.symm
      rw [hmap] at hgoal
      have heq := writeTable_eq_of_aux cols props wg snd paths haux
      rw [heq] at hok
      simp only [Prod.mk.injEq, Except.ok.injEq] at hok
      obtain ⟨h1, h2⟩ := hok
      subst h1
      subst h2
      exact hgoal

/-- Concrete run for C3: one persisted dirty property is stored under its
recorded name and its path becomes the returned base name. -/
theorem writeTable_stores_dirty_props_witness :
    ((([⟨"a", Except.ok "pa"⟩] : List Column).length =
        ([⟨"a", "", true⟩] : List PropStorageInfo).length) ∧
      writeTable [⟨"a", Except.ok "pa"⟩] [⟨"a", "", true⟩] [] =
        (.ok [⟨"a", "pa", true⟩], ["a"])) ∧
    (["a"] = [] ++ storedNames
        (([⟨"a", Except.ok "pa"⟩] : List Column).zip [⟨"a", "", true⟩]) ∧
      List.Forall₂ writeTableEntryRel
        (([⟨"a", Except.ok "pa"⟩] : List Column).zip [⟨"a", "", true⟩])
        [⟨"a", "pa", true⟩]) :=
  ⟨⟨by decide, by decide⟩,
    writeTable_stores_dirty_props [⟨"a", Except.ok "pa"⟩] [⟨"a", "", true⟩]
      [] ["a"] [⟨"a", "pa", true⟩] (by decide) (by decide)⟩

/-- RDGMeta (tsuba): immutable descriptor of one committed snapshot, together
with the partition directory it belongs to. -/
structure RDGMeta where
  dir : String
  version : Nat
  numHosts : Nat
  policyId : Nat
  transposed : Bool
  lineage : List String
deriving DecidableEq, Repr

/-- Modelled from the spec: RDGMeta::NextVersion (RDGMeta's implementation is
not under src/) is a pure function deriving version N+1 from version N plus
the new host count, policy id, transpose flag and lineage (spec sections 3
and 4.1). -/
def RDGMeta.nextVersion (m : RDGMeta) (numHosts policyId : Nat)
    (transposed : Bool) (lineage : List String) : RDGMeta :=
  { m with
    version := m.version + 1
    numHosts := numHosts
    policyId := policyId
    transposed := transposed
    lineage := lineage }

/-- Modelled from the spec: RDGMeta::IsEmptyRDG (not under src/) holds for a
freshly initialized, never-committed partition (spec section 4.1); committed
versions are the positive numbers. -/
def RDGMeta.isEmptyRDG (m : RDGMeta) : Bool := m.version == 0

/-- Outcomes the environment assigns to the three fallible collaborator calls
made by CommitRDG: WriteGroup::Finish, NS()->Update of the latest-version
mapping, and the OneHostOnly FileStore of the new metadata-pointer file. -/
structure CommitEnv where
  finishResult : GResult Unit
  nsUpdateResult : GResult Unit
  pointerStoreResult : GResult Unit
deriving DecidableEq, Repr

/-- Observable outcome of CommitRDG: the returned result, the handle's cached
metadata after the call, and which protocol steps were reached. -/
structure CommitOutcome where
  result : GResult Unit
  handleMeta : RDGMeta
  barrierReached : Bool
  nsUpdateCalled : Bool
  pointerWriteCalled : Bool
deriving DecidableEq, Repr

/-- CommitRDG (RDG.cpp:149-200): compute the next RDGMeta, wait for the
WriteGroup (returning its error on failure), run the cross-host barrier, call
the naming-service Update — whose failure the source only logs
(RDG.cpp:167-174), so control continues regardless of env.nsUpdateResult —
then have one host store the new metadata-pointer file, and advance the
handle's cached metadata exactly when that final result is a success. -/
def commitRDG (env : CommitEnv) (meta : RDGMeta) (numHosts policyId : Nat)
    (transposed : Bool) (lineage : List String) : CommitOutcome :=
  let newMeta := meta.nextVersion numHosts policyId transposed lineage
  match env.finishResult with
  | .error e =>
    { result := .error e
      handleMeta := meta
      barrierReached := false
      nsUpdateCalled := false
      pointerWriteCalled := false }
  | .ok _ =>
    match env.pointerStoreResult with
    | .error e =>
      { result := .error e
        handleMeta := meta
        barrierReached := true
        nsUpdateCalled := true
        pointerWriteCalled := true }
    | .ok _ =>
      { result := .ok ()
        handleMeta := newMeta
        barrierReached := true
        nsUpdateCalled := true
        pointerWriteCalled := true }

/-- C1 counterexample: with every queued write durable and the pointer-file
write succeeding, but the naming-service Update failing with a concurrent
writer conflict, CommitRDG still returns success and still advances the
handle's cached metadata past the prior version — the Update failure is only
logged (RDG.cpp:167-174). -/
theorem commitRDG_nsConflict_still_commits :
    (CommitEnv.mk (.ok ()) (.error .NamingConflict) (.ok ())).nsUpdateResult
        = .error .NamingConflict ∧
    (commitRDG (CommitEnv.mk (.ok ()) (.error .NamingConflict) (.ok ()))
        (RDGMeta.mk "part" 1 1 0 false []) 1 0 false []).result = .ok () ∧
    (commitRDG (CommitEnv.mk (.ok ()) (.error .NamingConflict) (.ok ()))
        (RDGMeta.mk "part" 1 1 0 false []) 1 0 false []).handleMeta.version = 2 := by
  decide

/-- C1 as amended: CommitRDG returns success exactly when WriteGroup::Finish
and the metadata-pointer-file write both succeed — the naming-service Update
outcome plays no part — and the handle's cached RDGMeta is advanced to the
next version exactly on that success, being left at the prior version on any
returned failure. -/
theorem commitRDG_advance_iff_finish_and_pointer_ok (env : CommitEnv)
    (meta : RDGMeta) (numHosts policyId : Nat) (transposed : Bool)
    (lineage : List String) :
    ((commitRDG env meta numHosts policyId transposed lineage).result = .ok () ↔
      env.finishResult = .ok () ∧ env.pointerStoreResult = .ok ()) ∧
    ((commitRDG env meta numHosts policyId transposed lineage).result = .ok () →
      (commitRDG env meta numHosts policyId transposed lineage).handleMeta =
        meta.nextVersion numHosts policyId transposed lineage) ∧
    ((commitRDG env meta numHosts policyId transposed lineage).result ≠ .ok () →
      (commitRDG env meta numHosts policyId transposed lineage).handleMeta = meta) := by
  cases hf : env.finishResult with
  | error e => simp [commitRDG, hf]
  | ok u =>
    cases u
    cases hp : env.pointerStoreResult with
    | error e => simp [commitRDG, hf, hp]
    | ok v =>
      cases v
      simp [commitRDG, hf, hp]

/-- Concrete run for C1's amended statement: with all three collaborator
calls succeeding, CommitRDG succeeds and the cached metadata is the next
version. -/
theorem commitRDG_advance_iff_finish_and_pointer_ok_witness :
    (commitRDG (CommitEnv.mk (.ok ()) (.ok ()) (.ok ()))
        (RDGMeta.mk "part" 3 2 1 false ["load"]) 2 1 true ["load", "bfs"]).result
      = .ok () ∧
    (commitRDG (CommitEnv.mk (.ok ()) (.ok ()) (.ok ()))
        (RDGMeta.mk "part" 3 2 1 false ["load"]) 2 1 true ["load", "bfs"]).handleMeta
      = (RDGMeta.mk "part" 3 2 1 false ["load"]).nextVersion 2 1 true ["load", "bfs"] := by
  have h := commitRDG_advance_iff_finish_and_pointer_ok
    (CommitEnv.mk (.ok ()) (.ok ()) (.ok ()))
    (RDGMeta.mk "part" 3 2 1 false ["load"]) 2 1 true ["load", "bfs"]
  have hok := h.1.mpr ⟨rfl, rfl⟩
  exact ⟨hok, h.2.1 hok⟩

/-- C2: if WriteGroup::Finish reports a failed asynchronous write, CommitRDG
returns that failure before reaching the cross-host barrier, before calling
the naming-service Update and before writing the metadata-pointer file, and
the handle's cached RDGMeta is unchanged. -/
theorem commitRDG_finish_failure_aborts (env : CommitEnv) (meta : RDGMeta)
    (numHosts policyId : Nat) (transposed : Bool) (lineage : List String)
    (e : ErrorCode) (hf : env.finishResult = .error e) :
    (commitRDG env meta numHosts policyId transposed lineage).result = .error e ∧
    (commitRDG env meta numHosts policyId transposed lineage).handleMeta = meta ∧
    (commitRDG env meta numHosts policyId transposed lineage).barrierReached = false ∧
    (commitRDG env meta numHosts policyId transposed lineage).nsUpdateCalled = false ∧
    (commitRDG env meta numHosts policyId transposed lineage).pointerWriteCalled = false := by
  simp [commitRDG, hf]

/-- Concrete run for C2: a write-group failure with an arrow error aborts the
commit with no step reached and the cached metadata untouched. -/
theorem commitRDG_finish_failure_aborts_witness :
    (CommitEnv.mk (.error .ArrowError) (.ok ()) (.ok ())).finishResult
        = .error .ArrowError ∧
    ((commitRDG (CommitEnv.mk (.error .ArrowError) (.ok ()) (.ok ()))
        (RDGMeta.mk "part" 4 2 0 false []) 2 0 false []).result = .error .ArrowError ∧
      (commitRDG (CommitEnv.mk (.error .ArrowError) (.ok ()) (.ok ()))
        (RDGMeta.mk "part" 4 2 0 false []) 2 0 false []).handleMeta
          = RDGMeta.mk "part" 4 2 0 false [] ∧
      (commitRDG (CommitEnv.mk (.error .ArrowError) (.ok ()) (.ok ()))
        (RDGMeta.mk "part" 4 2 0 false []) 2 0 false []).barrierReached = false ∧
      (commitRDG (CommitEnv.mk (.error .ArrowError) (.ok ()) (.ok ()))
        (RDGMeta.mk "part" 4 2 0 false []) 2 0 false []).nsUpdateCalled = false ∧
      (commitRDG (CommitEnv.mk (.error .ArrowError) (.ok ()) (.ok ()))
        (RDGMeta.mk "part" 4 2 0 false []) 2 0 false []).pointerWriteCalled = false) :=
  ⟨rfl, commitRDG_finish_failure_aborts (CommitEnv.mk (.error .ArrowError) (.ok ()) (.ok ()))
    (RDGMeta.mk "part" 4 2 0 false []) 2 0 false [] .ArrowError rfl⟩

/-- PartitionMetadata fields DoStore reads (policy id and transpose flag). -/
structure PartitionMetadata where
  policyId : Nat
  transposed : Bool
deriving DecidableEq, Repr

/-- RDGPartHeader contents relevant here: the topology path and the three
ordered PropStorageInfo sequences (node, edge, partition-boundary), plus the
partition metadata. -/
structure PartHeader where
  topologyPath : String
  nodePropInfoList : List PropStorageInfo
  edgePropInfoList : List PropStorageInfo
  partPropInfoList : List PropStorageInfo
  metadata : PartitionMetadata
deriving DecidableEq, Repr

/-- The RDG partition instance (tsuba::RDG together with its RDGCore): node
and edge attribute tables, the part header, the partition-boundary arrays
(mirror-node sets, master-node sets, local-to-global id vector), the lineage
and the directory the RDG was loaded from. -/
structure RDGState where
  nodeTable : List Column
  edgeTable : List Column
  partHeader : PartHeader
  mirrorNodes : List Column
  masterNodes : List Column
  localToGlobal : Option Column
  lineage : List String
  rdgDir : String
deriving DecidableEq, Repr

/-- Mirror-node loop of WritePartArrays (RDG.cpp:244-255): store every
mirror array under MirrorPropName of its index and collect a persisted
PropStorageInfo carrying the returned path. -/
def writeMirrorArrays : Nat → List Column → List String →
    GResult (List PropStorageInfo) × List String
  | _, [], wg => (.ok [], wg)
  | i, c :: cs, wg =>
    match storeArrowArrayAtName c (MirrorPropName i) wg with
    | (.error e, wg') => (.error e, wg')
    | (.ok base, wg') =>
      match writeMirrorArrays (i + 1) cs wg' with
      | (.error e, wg'') => (.error e, wg'')
      | (.ok rest, wg'') =>
        (.ok ({ name := MirrorPropName i, path := base, persist := true } :: rest), wg'')

/-- Master-node loop of WritePartArrays (RDG.cpp:257-268). -/
def writeMasterArrays : Nat → List Column → List String →
    GResult (List PropStorageInfo) × List String
  | _, [], wg => (.ok [], wg)
  | i, c :: cs, wg =>
    match storeArrowArrayAtName c (MasterPropName i) wg with
    | (.error e, wg') => (.error e, wg')
    | (.ok base, wg') =>
      match writeMasterArrays (i + 1) cs wg' with
      | (.error e, wg'') => (.error e, wg'')
      | (.ok rest, wg'') =>
        (.ok ({ name := MasterPropName i, path := base, persist := true } :: rest), wg'')

/-- WritePartArrays (RDG.cpp:234-284): unconditionally store every mirror
array, every master array and the local-to-global vector (when present), and
return the freshly built partition-boundary property list. -/
def writePartArrays (mirror master : List Column) (l2g : Option Column)
    (wg : List String) : GResult (List PropStorageInfo) × List String :=
  match writeMirrorArrays 0 mirror wg with
  | (.error e, wg') => (.error e, wg')
  | (.ok mirr, wg') =>
    match writeMasterArrays 0 master wg' with
    | (.error e, wg'') => (.error e, wg'')
    | (.ok mast, wg'') =>
      match l2g with
      | none => (.ok (mirr ++ mast), wg'')
      | some c =>
        match storeArrowArrayAtName c kLocalToTGlobalPropName wg'' with
        | (.error e, wg3) => (.error e, wg3)
        | (.ok base, wg3) =>
          (.ok (mirr ++ mast ++
            [{ name := kLocalToTGlobalPropName, path := base, persist := true }]), wg3)

/-- Environment of one DoStore call: the base name RandFile generates for a
fresh topology file, the outcome of the part header's own serialization and
write (RDGPartHeader::Write is not under src/ and is embedded by its result
alone; its enqueued bytes are not an attribute column), and the CommitRDG
collaborator outcomes. -/
structure StoreEnv where
  topologyBaseName : String
  headerWriteResult : GResult Unit
  commit : CommitEnv
deriving DecidableEq, Repr

/-- Observable outcome of DoStore: the returned result, the RDG state after
the call (the source mutates the header in place, so changes made before a
failure stay visible), the handle's cached metadata, and the write group's
accumulated attribute/topology writes. -/
structure StoreOutcome where
  result : GResult Unit
  state : RDGState
  handleMeta : RDGMeta
  writes : List String
deriving DecidableEq, Repr

/-- Step 1 of DoStore (RDG.cpp:290-302): when no topology file has ever been
written, enqueue the topology bytes and record the fresh file's base name in
the header. -/
def topologyStep (env : StoreEnv) (s : RDGState) (wg : List String) :
    RDGState × List String :=
  if s.partHeader.topologyPath = "" then
    ({ s with partHeader := { s.partHeader with topologyPath := env.topologyBaseName } },
      wg ++ ["topology"])
  else (s, wg)

/-- DoStore (RDG.cpp:286-354): topology step, node table write, edge table
write, partition-array write — each installing its updated storage-info list
into the header on success and aborting with the error on failure — then the
header write, the lineage update and CommitRDG. -/
def doStore (env : StoreEnv) (s : RDGState) (meta : RDGMeta) (numHosts : Nat)
    (commandLine : String) (wg : List String) : StoreOutcome :=
  let s1 := (topologyStep env s wg).1
  let wg1 := (topologyStep env s wg).2
  match writeTable s1.nodeTable s1.partHeader.nodePropInfoList wg1 with
  | (.error e, wg2) =>
    { result := .error e, state := s1, handleMeta := meta, writes := wg2 }
  | (.ok nodeList, wg2) =>
    let s2 := { s1 with partHeader := { s1.partHeader with nodePropInfoList := nodeList } }
    match writeTable s2.edgeTable s2.partHeader.edgePropInfoList wg2 with
    | (.error e, wg3) =>
      { result := .error e, state := s2, handleMeta := meta, writes := wg3 }
    | (.ok edgeList, wg3) =>
      let s3 := { s2 with partHeader := { s2.partHeader with edgePropInfoList := edgeList } }
      match writePartArrays s3.mirrorNodes s3.masterNodes s3.localToGlobal wg3 with
      | (.error e, wg4) =>
        { result := .error e, state := s3, handleMeta := meta, writes := wg4 }
      | (.ok partList, wg4) =>
        let s4 := { s3 with partHeader := { s3.partHeader with partPropInfoList := partList } }
        match env.headerWriteResult with
        | .error e =>
          { result := .error e, state := s4, handleMeta := meta, writes := wg4 }
        | .ok _ =>
          let s5 := { s4 with lineage := s4.lineage ++ [commandLine] }
          let out := commitRDG env.commit meta numHosts
            s5.partHeader.metadata.policyId s5.partHeader.metadata.transposed s5.lineage
          { result := out.result, state := s5, handleMeta := out.handleMeta, writes := wg4 }

theorem writeTableAux_fst_indep (l : List (Column × PropStorageInfo)) :
    ∀ wg wg', (writeTableAux l wg).1 = (writeTableAux l wg').1 := by
  induction l with
  | nil => intro wg wg'; rfl
  | cons cp rest ih =>
    intro wg wg'
    obtain ⟨c, p⟩ := cp
    by_cases h : p.persist = true ∧ p.path = ""
    · cases hco : c.storeOutcome with
      | error e => simp [writeTableAux, h, storeArrowArrayAtName, hco]
      | ok base =>
        simp only [writeTableAux, if_pos h, storeArrowArrayAtName, hco]
        have hrec := ih (wg ++ [if p.name = "" then c.fieldName else p.name])
          (wg' ++ [if p.name = "" then c.fieldName else p.name])
        cases h1 : writeTableAux rest (wg ++ [if p.name = "" then c.fieldName else p.name]) with
        | mk f1 s1 =>
        cases h2 : writeTableAux rest (wg' ++ [if p.name = "" then c.fieldName else p.name]) with
        | mk f2 s2 =>
          have hf : f1 = f2 := by rw [h1, h2] at hrec; exact hrec
          subst hf
          cases f1 <;> rfl
    · simp only [writeTableAux, if_neg h]
      exact ih wg wg'

theorem writeTable_fst_indep (cols : List Column) (props : List PropStorageInfo)
    (wg wg' : List String) :
    (writeTable cols props wg).1 = (writeTable cols props wg').1 := by
  unfold writeTable
  have haux := writeTableAux_fst_indep (cols.zip props) wg wg'
  cases h1 : writeTableAux (cols.zip props) wg with
  | mk f1 s1 =>
  cases h2 : writeTableAux (cols.zip props) wg' with
  | mk f2 s2 =>
    have hf : f1 = f2 := by rw [h1, h2] at haux; exact haux
    subst hf
    cases f1 with
    | error e => rfl
    | ok paths => by_cases hp : paths = [] <;> simp [hp]

theorem writeMirrorArrays_fst_indep (cs : List Column) :
    ∀ i wg wg', (writeMirrorArrays i cs wg).1 = (writeMirrorArrays i cs wg').1 := by
  induction cs with
  | nil => intro i wg wg'; rfl
  | cons c rest ih =>
    intro i wg wg'
    cases hco : c.storeOutcome with
    | error e => simp [writeMirrorArrays, storeArrowArrayAtName, hco]
    | ok base =>
      simp only [writeMirrorArrays, storeArrowArrayAtName, hco]
      have hrec := ih (i + 1) (wg ++ [MirrorPropName i]) (wg' ++ [MirrorPropName i])
      cases h1 : writeMirrorArrays (i + 1) rest (wg ++ [MirrorPropName i]) with
      | mk f1 s1 =>
      cases h2 : writeMirrorArrays (i + 1) rest (wg' ++ [MirrorPropName i]) with
      | mk f2 s2 =>
        have hf : f1 = f2 := by rw [h1, h2] at hrec; exact hrec
        subst hf
        cases f1 <;> rfl

theorem writeMasterArrays_fst_indep (cs : List Column) :
    ∀ i wg wg', (writeMasterArrays i cs wg).1 = (writeMasterArrays i cs wg').1 := by
  induction cs with
  | nil => intro i wg wg'; rfl
  | cons c rest ih =>
    intro i wg wg'
    cases hco : c.storeOutcome with
    | error e => simp [writeMasterArrays, storeArrowArrayAtName, hco]
    | ok base =>
      simp only [writeMasterArrays, storeArrowArrayAtName, hco]
      have hrec := ih (i + 1) (wg ++ [MasterPropName i]) (wg' ++ [MasterPropName i])
      cases h1 : writeMasterArrays (i + 1) rest (wg ++ [MasterPropName i]) with
      | mk f1 s1 =>
      cases h2 : writeMasterArrays (i + 1) rest (wg' ++ [MasterPropName i]) with
      | mk f2 s2 =>
        have hf : f1 = f2 := by rw [h1, h2] at hrec; exact hrec
        subst hf
        cases f1 <;> rfl

theorem writePartArrays_fst_indep (mirror master : List Column) (l2g : Option Column)
    (wg wg' : List String) :
    (writePartArrays mirror master l2g wg).1 = (writePartArrays mirror master l2g wg').1 := by
  cases h1 : writeMirrorArrays 0 mirror wg with
  | mk f1 s1 =>
  cases h2 : writeMirrorArrays 0 mirror wg' with
  | mk f2 s2 =>
    have hf : f1 = f2 := by
      have hm := writeMirrorArrays_fst_indep mirror 0 wg wg'
      rw [h1, h2] at hm
      exact hm
    subst hf
    cases f1 with
    | error e => simp [writePartArrays, h1, h2]
    | ok mirr =>
      cases h3 : writeMasterArrays 0 master s1 with
      | mk g1 t1 =>
      cases h4 : writeMasterArrays 0 master s2 with
      | mk g2 t2 =>
        have hg : g1 = g2 := by
          have hma := writeMasterArrays_fst_indep master 0 s1 s2
          rw [h3, h4] at hma
          exact hma
        subst hg
        cases g1 with
        | error e => simp [writePartArrays, h1, h2, h3, h4]
        | ok mast =>
          cases l2g with
          | none => simp [writePartArrays, h1, h2, h3, h4]
          | some c =>
            cases hco : c.storeOutcome with
            | error e =>
              simp [writePartArrays, storeArrowArrayAtName, h1, h2, h3, h4, hco]
            | ok base =>
              simp [writePartArrays, storeArrowArrayAtName, h1, h2, h3, h4, hco]

theorem writeTableAux_error_mem (l : List (Column × PropStorageInfo)) :
    ∀ wg e, (writeTableAux l wg).1 = .error e →
      ∃ cp ∈ l, (cp.2.persist = true ∧ cp.2.path = "") ∧
        cp.1.storeOutcome = .error e := by
  induction l with
  | nil =>
    intro wg e h
    exact absurd h (by simp [writeTableAux])
  | cons cp rest ih =>
    intro wg e h
    obtain ⟨c, p⟩ := cp
    by_cases hel : p.persist = true ∧ p.path = ""
    · cases hco : c.storeOutcome with
      | error e' =>
        simp only [writeTableAux, if_pos hel, storeArrowArrayAtName, hco] at h
        have he : e' = e := by simpa using h
        subst he
        exact ⟨(c, p), List.mem_cons_self _ _, hel, hco⟩
      | ok base =>
        simp only [writeTableAux, if_pos hel, storeArrowArrayAtName, hco] at h
        cases haux : writeTableAux rest
            (wg ++ [if p.name = "" then c.fieldName else p.name]) with
        | mk f snd =>
          rw [haux] at h
          cases f with
          | error e2 =>
            have he : e2 = e := by simpa using h
            subst he
            obtain ⟨cp', hmem, hrest⟩ := ih _ _ (by rw [haux])
            exact ⟨cp', List.mem_cons_of_mem _ hmem, hrest⟩
          | ok paths => simp at h
    · simp only [writeTableAux, if_neg hel] at h
      obtain ⟨cp', hmem, hrest⟩ := ih _ _ h
      exact ⟨cp', List.mem_cons_of_mem _ hmem, hrest⟩

theorem writeTable_error_mem (cols : List Column) (props : List PropStorageInfo)
    (wg : List String) (e : ErrorCode)
    (h : (writeTable cols props wg).1 = .error e) :
    ∃ cp ∈ cols.zip props, (cp.2.persist = true ∧ cp.2.path = "") ∧
      cp.1.storeOutcome = .error e := by
  apply writeTableAux_error_mem (cols.zip props) wg e
  unfold writeTable at h
  cases haux : writeTableAux (cols.zip props) wg with
  | mk f snd =>
    rw [haux] at h
    cases f with
    | error e' =>
      have : e' = e := by simpa using h
      simp [this]
    | ok paths =>
      by_cases hp : paths = [] <;> simp [hp] at h

theorem topologyStep_fields (env : StoreEnv) (s : RDGState) (wg : List String) :
    (topologyStep env s wg).1.nodeTable = s.nodeTable ∧
    (topologyStep env s wg).1.edgeTable = s.edgeTable ∧
    (topologyStep env s wg).1.partHeader.nodePropInfoList = s.partHeader.nodePropInfoList ∧
    (topologyStep env s wg).1.partHeader.edgePropInfoList = s.partHeader.edgePropInfoList ∧
    (topologyStep env s wg).1.partHeader.partPropInfoList = s.partHeader.partPropInfoList ∧
    (topologyStep env s wg).1.mirrorNodes = s.mirrorNodes ∧
    (topologyStep env s wg).1.masterNodes = s.masterNodes ∧
    (topologyStep env s wg).1.localToGlobal = s.localToGlobal := by
  unfold topologyStep
  split <;> simp

/-- C5 counterexample: with one dirty node property whose store succeeds and
one dirty edge property whose store fails, DoStore propagates the edge error
but the header's node storage-info sequence has already been replaced by the
updated list — it is not exactly as it was before the failed call. -/
theorem doStore_edge_failure_updates_node_list :
    (doStore (StoreEnv.mk "tbase" (.ok ()) (CommitEnv.mk (.ok ()) (.ok ()) (.ok ())))
      (RDGState.mk [Column.mk "a" (.ok "pa")] [Column.mk "b" (.error .ArrowError)]
        (PartHeader.mk "topo" [PropStorageInfo.mk "a" "" true]
          [PropStorageInfo.mk "b" "" true] [] (PartitionMetadata.mk 0 false))
        [] [] none [] "part")
      (RDGMeta.mk "part" 1 1 0 false []) 1 "cmd" []).result = .error .ArrowError ∧
    (doStore (StoreEnv.mk "tbase" (.ok ()) (CommitEnv.mk (.ok ()) (.ok ()) (.ok ())))
      (RDGState.mk [Column.mk "a" (.ok "pa")] [Column.mk "b" (.error .ArrowError)]
        (PartHeader.mk "topo" [PropStorageInfo.mk "a" "" true]
          [PropStorageInfo.mk "b" "" true] [] (PartitionMetadata.mk 0 false))
        [] [] none [] "part")
      (RDGMeta.mk "part" 1 1 0 false []) 1 "cmd" []).state.partHeader.nodePropInfoList
      = [PropStorageInfo.mk "a" "pa" true] ∧
    [PropStorageInfo.mk "a" "pa" true] ≠ [PropStorageInfo.mk "a" "" true] := by
  decide

/-- C5 as amended: a failed column store makes WriteTable return that
column's store error, and DoStore propagates the failing table's error
without installing that table's updated list or any later list — but the
lists of tables written earlier in the same call have already been installed:
a node-table failure leaves all three storage-info sequences unchanged, an
edge-table failure leaves the edge and partition-boundary sequences unchanged
with the node sequence already updated, and a partition-array failure leaves
the partition-boundary sequence unchanged with the node and edge sequences
already updated. -/
theorem doStore_table_write_failure_cases (env : StoreEnv) (s : RDGState)
    (meta : RDGMeta) (numHosts : Nat) (commandLine : String) (wg : List String) :
    (∀ cols props wg0 e, (writeTable cols props wg0).1 = .error e →
      ∃ cp ∈ cols.zip props, (cp.2.persist = true ∧ cp.2.path = "") ∧
        cp.1.storeOutcome = .error e) ∧
    (∀ e, (writeTable s.nodeTable s.partHeader.nodePropInfoList []).1 = .error e →
      (doStore env s meta numHosts commandLine wg).result = .error e ∧
      (doStore env s meta numHosts commandLine wg).state.partHeader.nodePropInfoList
        = s.partHeader.nodePropInfoList ∧
      (doStore env s meta numHosts commandLine wg).state.partHeader.edgePropInfoList
        = s.partHeader.edgePropInfoList ∧
      (doStore env s meta numHosts commandLine wg).state.partHeader.partPropInfoList
        = s.partHeader.partPropInfoList) ∧
    (∀ e nodeList,
      (writeTable s.nodeTable s.partHeader.nodePropInfoList []).1 = .ok nodeList →
      (writeTable s.edgeTable s.partHeader.edgePropInfoList []).1 = .error e →
      (doStore env s meta numHosts commandLine wg).result = .error e ∧
      (doStore env s meta numHosts commandLine wg).state.partHeader.nodePropInfoList
        = nodeList ∧
      (doStore env s meta numHosts commandLine wg).state.partHeader.edgePropInfoList
        = s.partHeader.edgePropInfoList ∧
      (doStore env s meta numHosts commandLine wg).state.partHeader.partPropInfoList
        = s.partHeader.partPropInfoList) ∧
    (∀ e nodeList edgeList,
      (writeTable s.nodeTable s.partHeader.nodePropInfoList []).1 = .ok nodeList →
      (writeTable s.edgeTable s.partHeader.edgePropInfoList []).1 = .ok edgeList →
      (writePartArrays s.mirrorNodes s.masterNodes s.localToGlobal []).1 = .error e →
      (doStore env s meta numHosts commandLine wg).result = .error e ∧
      (doStore env s meta numHosts commandLine wg).state.partHeader.nodePropInfoList
        = nodeList ∧
      (doStore env s meta numHosts commandLine wg).state.partHeader.edgePropInfoList
        = edgeList ∧
      (doStore env s meta numHosts commandLine wg).state.partHeader.partPropInfoList
        = s.partHeader.partPropInfoList) := by
  obtain ⟨hnt, het, hnp, hep, hpp, hmir, hmas, hl2g⟩ := topologyStep_fields env s wg
  refine ⟨fun cols props wg0 e h => writeTable_error_mem cols props wg0 e h, ?_, ?_, ?_⟩
  · intro e hn
    have h1 : (writeTable (topologyStep env s wg).1.nodeTable
        (topologyStep env s wg).1.partHeader.nodePropInfoList (topologyStep env s wg).2).1
        = .error e := by
      rw [hnt, hnp, writeTable_fst_indep s.nodeTable s.partHeader.nodePropInfoList _ []]
      exact hn
    cases hpair : writeTable (topologyStep env s wg).1.nodeTable
        (topologyStep env s wg).1.partHeader.nodePropInfoList (topologyStep env s wg).2 with
    | mk f w2 =>
      have hf : f = .error e := by rw [hpair] at h1; exact h1
      subst hf
      simp only [doStore, hpair]
      exact ⟨trivial, hnp, hep, hpp⟩
  · intro e nodeList hn he
    have h1 : (writeTable (topologyStep env s wg).1.nodeTable
        (topologyStep env s wg).1.partHeader.nodePropInfoList (topologyStep env s wg).2).1
        = .ok nodeList := by
      rw [hnt, hnp, writeTable_fst_indep s.nodeTable s.partHeader.nodePropInfoList _ []]
      exact hn
    cases hpair : writeTable (topologyStep env s wg).1.nodeTable
        (topologyStep env s wg).1.partHeader.nodePropInfoList (topologyStep env s wg).2 with
    | mk f w2 =>
      have hf : f = .ok nodeList := by rw [hpair] at h1; exact h1
      subst hf
      have h2 : (writeTable (topologyStep env s wg).1.edgeTable
          (topologyStep env s wg).1.partHeader.edgePropInfoList w2).1 = .error e := by
        rw [het, hep, writeTable_fst_indep s.edgeTable s.partHeader.edgePropInfoList _ []]
        exact he
      cases hpair2 : writeTable (topologyStep env s wg).1.edgeTable
          (topologyStep env s wg).1.partHeader.edgePropInfoList w2 with
      | mk g w3 =>
        have hg : g = .error e := by rw [hpair2] at h2; exact h2
        subst hg
        simp only [doStore, hpair]
        simp only [hpair2]
        exact ⟨trivial, trivial, hep, hpp⟩
  · intro e nodeList edgeList hn he hp
    have h1 : (writeTable (topologyStep env s wg).1.nodeTable
        (topologyStep env s wg).1.partHeader.nodePropInfoList (topologyStep env s wg).2).1
        = .ok nodeList := by
      rw [hnt, hnp, writeTable_fst_indep s.nodeTable s.partHeader.nodePropInfoList _ []]
      exact hn
    cases hpair : writeTable (topologyStep env s wg).1.nodeTable
        (topologyStep env s wg).1.partHeader.nodePropInfoList (topologyStep env s wg).2 with
    | mk f w2 =>
      have hf : f = .ok nodeList := by rw [hpair] at h1; exact h1
      subst hf
      have h2 : (writeTable (topologyStep env s wg).1.edgeTable
          (topologyStep env s wg).1.partHeader.edgePropInfoList w2).1 = .ok edgeList := by
        rw [het, hep, writeTable_fst_indep s.edgeTable s.partHeader.edgePropInfoList _ []]
        exact he
      cases hpair2 : writeTable (topologyStep env s wg).1.edgeTable
          (topologyStep env s wg).1.partHeader.edgePropInfoList w2 with
      | mk g w3 =>
        have hg : g = .ok edgeList := by rw [hpair2] at h2; exact h2
        subst hg
        have h3 : (writePartArrays (topologyStep env s wg).1.mirrorNodes
            (topologyStep env s wg).1.masterNodes (topologyStep env s wg).1.localToGlobal
            w3).1 = .error e := by
          rw [hmir, hmas, hl2g,
            writePartArrays_fst_indep s.mirrorNodes s.masterNodes s.localToGlobal _ []]
          exact hp
        cases hpair3 : writePartArrays (topologyStep env s wg).1.mirrorNodes
            (topologyStep env s wg).1.masterNodes (topologyStep env s wg).1.localToGlobal w3 with
        | mk q w4 =>
          have hq : q = .error e := by rw [hpair3] at h3; exact h3
          subst hq
          simp only [doStore, hpair]
          simp only [hpair2]
          simp only [hpair3]
          exact ⟨trivial, trivial, trivial, hpp⟩

/-- Concrete run for C5's amended statement: a failing dirty edge column
aborts DoStore with its error, leaving the edge and partition-boundary
sequences unchanged while the node sequence already carries its new path. -/
theorem doStore_table_write_failure_cases_witness :
    ((writeTable [Column.mk "x" (.ok "px")] [PropStorageInfo.mk "x" "" true] []).1
        = .ok [PropStorageInfo.mk "x" "px" true] ∧
      (writeTable [Column.mk "y" (.error .IOErr)] [PropStorageInfo.mk "y" "" true] []).1
        = .error .IOErr) ∧
    ((doStore (StoreEnv.mk "tb" (.ok ()) (CommitEnv.mk (.ok ()) (.ok ()) (.ok ())))
        (RDGState.mk [Column.mk "x" (.ok "px")] [Column.mk "y" (.error .IOErr)]
          (PartHeader.mk "t" [PropStorageInfo.mk "x" "" true]
            [PropStorageInfo.mk "y" "" true] [] (PartitionMetadata.mk 2 true))
          [] [] none [] "d")
        (RDGMeta.mk "d" 5 1 2 true []) 1 "run" []).result = .error .IOErr ∧
      (doStore (StoreEnv.mk "tb" (.ok ()) (CommitEnv.mk (.ok ()) (.ok ()) (.ok ())))
        (RDGState.mk [Column.mk "x" (.ok "px")] [Column.mk "y" (.error .IOErr)]
          (PartHeader.mk "t" [PropStorageInfo.mk "x" "" true]
            [PropStorageInfo.mk "y" "" true] [] (PartitionMetadata.mk 2 true))
          [] [] none [] "d")
        (RDGMeta.mk "d" 5 1 2 true []) 1 "run" []).state.partHeader.nodePropInfoList
        = [PropStorageInfo.mk "x" "px" true] ∧
      (doStore (StoreEnv.mk "tb" (.ok ()) (CommitEnv.mk (.ok ()) (.ok ()) (.ok ())))
        (RDGState.mk [Column.mk "x" (.ok "px")] [Column.mk "y" (.error .IOErr)]
          (PartHeader.mk "t" [PropStorageInfo.mk "x" "" true]
            [PropStorageInfo.mk "y" "" true] [] (PartitionMetadata.mk 2 true))
          [] [] none [] "d")
        (RDGMeta.mk "d" 5 1 2 true []) 1 "run" []).state.partHeader.edgePropInfoList
        = [PropStorageInfo.mk "y" "" true] ∧
      (doStore (StoreEnv.mk "tb" (.ok ()) (CommitEnv.mk (.ok ()) (.ok ()) (.ok ())))
        (RDGState.mk [Column.mk "x" (.ok "px")] [Column.mk "y" (.error .IOErr)]
          (PartHeader.mk "t" [PropStorageInfo.mk "x" "" true]
            [PropStorageInfo.mk "y" "" true] [] (PartitionMetadata.mk 2 true))
          [] [] none [] "d")
        (RDGMeta.mk "d" 5 1 2 true []) 1 "run" []).state.partHeader.partPropInfoList
        = []) :=
  ⟨⟨by decide, by decide⟩,
    (doStore_table_write_failure_cases
      (StoreEnv.mk "tb" (.ok ()) (CommitEnv.mk (.ok ()) (.ok ()) (.ok ())))
      (RDGState.mk [Column.mk "x" (.ok "px")] [Column.mk "y" (.error .IOErr)]
        (PartHeader.mk "t" [PropStorageInfo.mk "x" "" true]
          [PropStorageInfo.mk "y" "" true] [] (PartitionMetadata.mk 2 true))
        [] [] none [] "d")
      (RDGMeta.mk "d" 5 1 2 true []) 1 "run" []).2.2.1
      .IOErr [PropStorageInfo.mk "x" "px" true] (by decide) (by decide)⟩

theorem writeTableAux_all_clean (l : List (Column × PropStorageInfo))
    (h : ∀ cp ∈ l, ¬(cp.2.persist = true ∧ cp.2.path = "")) :
    ∀ wg, writeTableAux l wg = (.ok [], wg) := by
  induction l with
  | nil => intro wg; rfl
  | cons cp rest ih =>
    intro wg
    obtain ⟨c, p⟩ := cp
    have hhead := h (c, p) (List.mem_cons_self _ _)
    simp only [writeTableAux, if_neg hhead]
    exact ih (fun cp' hcp' => h cp' (List.mem_cons_of_mem _ hcp')) wg

/-- A property list with no dirty persisted entry is returned unchanged by
WriteTable, with no write enqueued. -/
theorem writeTable_clean (cols : List Column) (props : List PropStorageInfo)
    (wg : List String) (h : ∀ p ∈ props, ¬(p.persist = true ∧ p.path = "")) :
    writeTable cols props wg = (.ok props, wg) := by
  unfold writeTable
  rw [writeTableAux_all_clean (cols.zip props) ?hz wg]
  · simp
  · intro cp hcp
    obtain ⟨c, p⟩ := cp
    exact h p (List.of_mem_zip hcp).2

theorem forall₂_entries_clean (l : List (Column × PropStorageInfo))
    (res : List PropStorageInfo)
    (hrel : List.Forall₂ writeTableEntryRel l res)
    (hbase : ∀ cp ∈ l, ∀ b, cp.1.storeOutcome = .ok b → b ≠ "") :
    ∀ p ∈ res, ¬(p.persist = true ∧ p.path = "") := by
  induction hrel with
  | nil => intro p hp; cases hp
  | @cons cp r l' res' hr hrest ih =>
    intro p hp
    rcases List.mem_cons.mp hp with rfl | hp'
    · rcases hr with ⟨hpers, hpath, base, hco, rfl⟩ | ⟨hnot, rfl⟩
      · intro hcontra
        exact hbase cp (List.mem_cons_self _ _) base hco hcontra.2
      · exact hnot
    · exact ih (fun cp' hcp' => hbase cp' (List.mem_cons_of_mem _ hcp')) p hp'

/-- After a successful WriteTable whose store outcomes carry nonempty base
names, every entry of the returned property list is clean: no entry is both
persisted and empty-path. -/
theorem writeTable_ok_entries_clean (cols : List Column)
    (props : List PropStorageInfo) (wg wg' : List String)
    (res : List PropStorageInfo)
    (hlen : cols.length = props.length)
    (hok : writeTable cols props wg = (.ok res, wg'))
    (hbase : ∀ c ∈ cols, ∀ b, c.storeOutcome = .ok b → b ≠ "") :
    ∀ p ∈ res, ¬(p.persist = true ∧ p.path = "") := by
  cases haux : writeTableAux (cols.zip props) wg with
  | mk f snd =>
    cases f with
    | error e =>
      have hbad : writeTable cols props wg = (.error e, snd) := by
        unfold writeTable
        rw [haux]
      rw [hbad] at hok
      exact absurd (congrArg Prod.fst hok) (by simp)
    | ok paths =>
      have hgoal := (writeTableAux_spec _ _ _ _ haux).2
      have hmap : (cols.zip props).map Prod.snd = props := by
        rw [List.map_snd_zip]
        exact le_of_eq hlen.symm
      rw [hmap] at hgoal
      have heq := writeTable_eq_of_aux cols props wg snd paths haux
      rw [heq] at hok
      simp only [Prod.mk.injEq, Except.ok.injEq] at hok
      obtain ⟨h1, h2⟩ := hok
      subst h1
      refine forall₂_entries_clean _ _ hgoal ?_
      intro cp hcp b hb
      obtain ⟨c, p⟩ := cp
      exact hbase c (List.of_mem_zip hcp).1 b hb

/-- C4 counterexample: a second DoStore with no intervening mutation still
performs attribute rewrites — the partition-boundary arrays are re-stored on
every commit by WritePartArrays, so after a first fully successful commit the
second call still enqueues a store of the mirror-node array. -/
theorem secondStore_rewrites_part_arrays :
    (doStore (StoreEnv.mk "tb" (.ok ()) (CommitEnv.mk (.ok ()) (.ok ()) (.ok ())))
      (RDGState.mk [Column.mk "a" (.ok "pa")] []
        (PartHeader.mk "t" [PropStorageInfo.mk "a" "" true] [] []
          (PartitionMetadata.mk 0 false))
        [Column.mk "m" (.ok "m1")] [] none [] "d")
      (RDGMeta.mk "d" 1 1 0 false []) 1 "c1" []).result = .ok () ∧
    (doStore (StoreEnv.mk "tb" (.ok ()) (CommitEnv.mk (.ok ()) (.ok ()) (.ok ())))
      (doStore (StoreEnv.mk "tb" (.ok ()) (CommitEnv.mk (.ok ()) (.ok ()) (.ok ())))
        (RDGState.mk [Column.mk "a" (.ok "pa")] []
          (PartHeader.mk "t" [PropStorageInfo.mk "a" "" true] [] []
            (PartitionMetadata.mk 0 false))
          [Column.mk "m" (.ok "m1")] [] none [] "d")
        (RDGMeta.mk "d" 1 1 0 false []) 1 "c1" []).state
      (doStore (StoreEnv.mk "tb" (.ok ()) (CommitEnv.mk (.ok ()) (.ok ()) (.ok ())))
        (RDGState.mk [Column.mk "a" (.ok "pa")] []
          (PartHeader.mk "t" [PropStorageInfo.mk "a" "" true] [] []
            (PartitionMetadata.mk 0 false))
          [Column.mk "m" (.ok "m1")] [] none [] "d")
        (RDGMeta.mk "d" 1 1 0 false []) 1 "c1" []).handleMeta 1 "c2" []).result
      = .ok () ∧
    (doStore (StoreEnv.mk "tb" (.ok ()) (CommitEnv.mk (.ok ()) (.ok ()) (.ok ())))
      (doStore (StoreEnv.mk "tb" (.ok ()) (CommitEnv.mk (.ok ()) (.ok ()) (.ok ())))
        (RDGState.mk [Column.mk "a" (.ok "pa")] []
          (PartHeader.mk "t" [PropStorageInfo.mk "a" "" true] [] []
            (PartitionMetadata.mk 0 false))
          [Column.mk "m" (.ok "m1")] [] none [] "d")
        (RDGMeta.mk "d" 1 1 0 false []) 1 "c1" []).state
      (doStore (StoreEnv.mk "tb" (.ok ()) (CommitEnv.mk (.ok ()) (.ok ()) (.ok ())))
        (RDGState.mk [Column.mk "a" (.ok "pa")] []
          (PartHeader.mk "t" [PropStorageInfo.mk "a" "" true] [] []
            (PartitionMetadata.mk 0 false))
          [Column.mk "m" (.ok "m1")] [] none [] "d")
        (RDGMeta.mk "d" 1 1 0 false []) 1 "c1" []).handleMeta 1 "c2" []).writes
      = ["mirror_nodes_0"] ∧
    (["mirror_nodes_0"] : List String) ≠ [] := by
  decide

/-- C4 as amended: after a successful DoStore (positionally aligned tables,
nonempty store base names), every node and edge property in the resulting
header is clean — persisted entries all carry nonempty paths — so a second
WriteTable over those lists stores nothing and returns the input list
unchanged; only the partition-boundary arrays, which WritePartArrays
re-stores unconditionally on every commit, are written again. -/
theorem doStore_second_store_idempotent_tables (env : StoreEnv) (s : RDGState)
    (meta : RDGMeta) (numHosts : Nat) (commandLine : String) (wg : List String)
    (hlenN : s.nodeTable.length = s.partHeader.nodePropInfoList.length)
    (hlenE : s.edgeTable.length = s.partHeader.edgePropInfoList.length)
    (hbaseN : ∀ c ∈ s.nodeTable, ∀ b, c.storeOutcome = .ok b → b ≠ "")
    (hbaseE : ∀ c ∈ s.edgeTable, ∀ b, c.storeOutcome = .ok b → b ≠ "")
    (hok : (doStore env s meta numHosts commandLine wg).result = .ok ()) :
    (∀ p ∈ (doStore env s meta numHosts commandLine wg).state.partHeader.nodePropInfoList,
      ¬(p.persist = true ∧ p.path = "")) ∧
    (∀ p ∈ (doStore env s meta numHosts commandLine wg).state.partHeader.edgePropInfoList,
      ¬(p.persist = true ∧ p.path = "")) ∧
    (∀ cols wg2, writeTable cols
        (doStore env s meta numHosts commandLine wg).state.partHeader.nodePropInfoList wg2
      = (.ok (doStore env s meta numHosts commandLine wg).state.partHeader.nodePropInfoList,
          wg2)) ∧
    (∀ cols wg2, writeTable cols
        (doStore env s meta numHosts commandLine wg).state.partHeader.edgePropInfoList wg2
      = (.ok (doStore env s meta numHosts commandLine wg).state.partHeader.edgePropInfoList,
          wg2)) := by
  obtain ⟨hnt, het, hnp, hep, hpp, hmir, hmas, hl2g⟩ := topologyStep_fields env s wg
  cases hpair : writeTable (topologyStep env s wg).1.nodeTable
      (topologyStep env s wg).1.partHeader.nodePropInfoList (topologyStep env s wg).2 with
  | mk f w2 =>
  cases f with
  | error e =>
    simp only [doStore, hpair] at hok
    exact absurd hok (by simp)
  | ok nodeList =>
    cases hpair2 : writeTable (topologyStep env s wg).1.edgeTable
        (topologyStep env s wg).1.partHeader.edgePropInfoList w2 with
    | mk g w3 =>
    cases g with
    | error e =>
      simp only [doStore, hpair, hpair2] at hok
      exact absurd hok (by simp)
    | ok edgeList =>
      cases hpair3 : writePartArrays (topologyStep env s wg).1.mirrorNodes
          (topologyStep env s wg).1.masterNodes (topologyStep env s wg).1.localToGlobal w3 with
      | mk q w4 =>
      cases q with
      | error e =>
        simp only [doStore, hpair, hpair2, hpair3] at hok
        exact absurd hok (by simp)
      | ok partList =>
        cases hh : env.headerWriteResult with
        | error e =>
          simp only [doStore, hpair, hpair2, hpair3, hh] at hok
          exact absurd hok (by simp)
        | ok u =>
          have hpairS : writeTable s.nodeTable s.partHeader.nodePropInfoList
              (topologyStep env s wg).2 = (.ok nodeList, w2) := by
            rw [← hnt, ← hnp]
            exact hpair
          have hpair2S : writeTable s.edgeTable s.partHeader.edgePropInfoList w2
              = (.ok edgeList, w3) := by
            rw [← het, ← hep]
            exact hpair2
          have hcleanN := writeTable_ok_entries_clean s.nodeTable
            s.partHeader.nodePropInfoList (topologyStep env s wg).2 w2 nodeList
            hlenN hpairS hbaseN
          have hcleanE := writeTable_ok_entries_clean s.edgeTable
            s.partHeader.edgePropInfoList w2 w3 edgeList hlenE hpair2S hbaseE
          simp only [doStore, hpair, hpair2, hpair3, hh]
          exact ⟨hcleanN, hcleanE,
            fun cols wg2 => writeTable_clean cols nodeList wg2 hcleanN,
            fun cols wg2 => writeTable_clean cols edgeList wg2 hcleanE⟩

/-- Concrete run for C4's amended statement: after a successful first commit
with one dirty node property, the resulting node list is clean and a second
WriteTable over it stores nothing and returns it unchanged. -/
theorem doStore_second_store_idempotent_tables_witness :
    ((doStore (StoreEnv.mk "tb2" (.ok ()) (CommitEnv.mk (.ok ()) (.ok ()) (.ok ())))
        (RDGState.mk [Column.mk "w" (.ok "pw")] []
          (PartHeader.mk "t2" [PropStorageInfo.mk "w" "" true] [] []
            (PartitionMetadata.mk 1 false))
          [] [] none [] "dir2")
        (RDGMeta.mk "dir2" 2 1 1 false []) 1 "c" []).result = .ok ()) ∧
    ((∀ p ∈ (doStore (StoreEnv.mk "tb2" (.ok ()) (CommitEnv.mk (.ok ()) (.ok ()) (.ok ())))
        (RDGState.mk [Column.mk "w" (.ok "pw")] []
          (PartHeader.mk "t2" [PropStorageInfo.mk "w" "" true] [] []
            (PartitionMetadata.mk 1 false))
          [] [] none [] "dir2")
        (RDGMeta.mk "dir2" 2 1 1 false []) 1 "c" []).state.partHeader.nodePropInfoList,
        ¬(p.persist = true ∧ p.path = "")) ∧
      (∀ p ∈ (doStore (StoreEnv.mk "tb2" (.ok ()) (CommitEnv.mk (.ok ()) (.ok ()) (.ok ())))
        (RDGState.mk [Column.mk "w" (.ok "pw")] []
          (PartHeader.mk "t2" [PropStorageInfo.mk "w" "" true] [] []
            (PartitionMetadata.mk 1 false))
          [] [] none [] "dir2")
        (RDGMeta.mk "dir2" 2 1 1 false []) 1 "c" []).state.partHeader.edgePropInfoList,
        ¬(p.persist = true ∧ p.path = "")) ∧
      (∀ cols wg2, writeTable cols
          (doStore (StoreEnv.mk "tb2" (.ok ()) (CommitEnv.mk (.ok ()) (.ok ()) (.ok ())))
            (RDGState.mk [Column.mk "w" (.ok "pw")] []
              (PartHeader.mk "t2" [PropStorageInfo.mk "w" "" true] [] []
                (PartitionMetadata.mk 1 false))
              [] [] none [] "dir2")
            (RDGMeta.mk "dir2" 2 1 1 false []) 1 "c" []).state.partHeader.nodePropInfoList
          wg2
        = (.ok (doStore (StoreEnv.mk "tb2" (.ok ()) (CommitEnv.mk (.ok ()) (.ok ()) (.ok ())))
            (RDGState.mk [Column.mk "w" (.ok "pw")] []
              (PartHeader.mk "t2" [PropStorageInfo.mk "w" "" true] [] []
                (PartitionMetadata.mk 1 false))
              [] [] none [] "dir2")
            (RDGMeta.mk "dir2" 2 1 1 false []) 1 "c" []).state.partHeader.nodePropInfoList,
            wg2)) ∧
      (∀ cols wg2, writeTable cols
          (doStore (StoreEnv.mk "tb2" (.ok ()) (CommitEnv.mk (.ok ()) (.ok ()) (.ok ())))
            (RDGState.mk [Column.mk "w" (.ok "pw")] []
              (PartHeader.mk "t2" [PropStorageInfo.mk "w" "" true] [] []
                (PartitionMetadata.mk 1 false))
              [] [] none [] "dir2")
            (RDGMeta.mk "dir2" 2 1 1 false []) 1 "c" []).state.partHeader.edgePropInfoList
          wg2
        = (.ok (doStore (StoreEnv.mk "tb2" (.ok ()) (CommitEnv.mk (.ok ()) (.ok ()) (.ok ())))
            (RDGState.mk [Column.mk "w" (.ok "pw")] []
              (PartHeader.mk "t2" [PropStorageInfo.mk "w" "" true] [] []
                (PartitionMetadata.mk 1 false))
              [] [] none [] "dir2")
            (RDGMeta.mk "dir2" 2 1 1 false []) 1 "c" []).state.partHeader.edgePropInfoList,
            wg2))) :=
  ⟨by decide,
    doStore_second_store_idempotent_tables
      (StoreEnv.mk "tb2" (.ok ()) (CommitEnv.mk (.ok ()) (.ok ()) (.ok ())))
      (RDGState.mk [Column.mk "w" (.ok "pw")] []
        (PartHeader.mk "t2" [PropStorageInfo.mk "w" "" true] [] []
          (PartitionMetadata.mk 1 false))
        [] [] none [] "dir2")
      (RDGMeta.mk "dir2" 2 1 1 false []) 1 "c" [] (by decide) (by decide)
      (by
        intro c hc b hb
        rw [List.mem_singleton] at hc
        subst hc
        simp only [Column.mk.injEq] at hb
        simp at hb
        subst hb
        decide)
      (by
        intro c hc b hb
        simp at hc)
      (by decide)⟩

/-- Outcomes the environment assigns to the fallible collaborator calls made
by DoMake: the three AddTables runs (AddTables.h is not under src/, so each
run's aggregate load-and-add result over one property list is an environment
choice) and the topology FileView Bind. -/
structure DoMakeEnv where
  nodeResult : GResult Unit
  edgeResult : GResult Unit
  partResult : GResult Unit
  topologyBindResult : GResult Unit
deriving DecidableEq, Repr

/-- DoMake (RDG.cpp:356-397): load node tables, edge tables, then — only when
the header's partition-boundary list is nonempty — the partition tables, then
bind the topology file and record the directory. The source's partition
branch returns edge_result.error() (RDG.cpp:385), reading the error slot of
the already-successful edge result; that read is embedded by errorOf. -/
def doMake (env : DoMakeEnv) (s : RDGState) (dir : String) : GResult RDGState :=
  match env.nodeResult with
  | .error e => .error e
  | .ok _ =>
    match env.edgeResult with
    | .error e => .error e
    | .ok _ =>
      match (if s.partHeader.partPropInfoList = [] then (.ok () : GResult Unit)
             else
               match env.partResult with
               | .error _ => .error (errorOf env.edgeResult)
               | .ok _ => .ok ()) with
      | .error e => .error e
      | .ok _ =>
        match env.topologyBindResult with
        | .error e => .error e
        | .ok _ => .ok { s with rdgDir := dir }

/-- C6: evaluation at the failing input. When the node and edge tables load
successfully but loading the partition-boundary tables fails with an
input-output error, DoMake does not return that error: it returns the value
read from the error slot of the successful edge result (RDG.cpp:385), so the
partition load failure's own error is lost. Node- and edge-table failures,
by contrast, are propagated exactly. -/
theorem doMake_part_failure_returns_wrong_error :
    doMake (DoMakeEnv.mk (.ok ()) (.ok ()) (.error .IOErr) (.ok ()))
      (RDGState.mk [] []
        (PartHeader.mk "t" [] [] [PropStorageInfo.mk "mirror_nodes_0" "m" true]
          (PartitionMetadata.mk 0 false))
        [] [] none [] "")
      "dir" = .error .Indeterminate ∧
    (DoMakeEnv.mk (.ok ()) (.ok ()) (.error .IOErr) (.ok ())).partResult
      = .error .IOErr ∧
    doMake (DoMakeEnv.mk (.ok ()) (.ok ()) (.error .IOErr) (.ok ()))
      (RDGState.mk [] []
        (PartHeader.mk "t" [] [] [PropStorageInfo.mk "mirror_nodes_0" "m" true]
          (PartitionMetadata.mk 0 false))
        [] [] none [] "")
      "dir" ≠ .error .IOErr ∧
    (∀ e, doMake (DoMakeEnv.mk (.error e) (.ok ()) (.ok ()) (.ok ()))
      (RDGState.mk [] []
        (PartHeader.mk "t" [] [] [PropStorageInfo.mk "mirror_nodes_0" "m" true]
          (PartitionMetadata.mk 0 false))
        [] [] none [] "")
      "dir" = .error e) ∧
    (∀ e, doMake (DoMakeEnv.mk (.ok ()) (.error e) (.ok ()) (.ok ()))
      (RDGState.mk [] []
        (PartHeader.mk "t" [] [] [PropStorageInfo.mk "mirror_nodes_0" "m" true]
          (PartitionMetadata.mk 0 false))
        [] [] none [] "")
      "dir" = .error e) := by
  refine ⟨by decide, by decide, by decide, ?_, ?_⟩
  · intro e
    rfl
  · intro e
    rfl

/-- Modelled from the spec: RDGPartHeader::PrunePropsTo (not under src/)
prunes the header's node and edge property lists to only the requested names
when filters are given; a missing filter keeps the whole list, and the
topology and partition-boundary metadata are never pruned (spec section 4.5). -/
def prunePropsTo (h : PartHeader) (nodeProps edgeProps : Option (List String)) :
    PartHeader :=
  { h with
    nodePropInfoList :=
      match nodeProps with
      | none => h.nodePropInfoList
      | some names => h.nodePropInfoList.filter (fun p => names.contains p.name)
    edgePropInfoList :=
      match edgeProps with
      | none => h.edgePropInfoList
      | some names => h.edgePropInfoList.filter (fun p => names.contains p.name) }

/-- Environment of one RDG::Make call: the outcome of reading and parsing the
partition header file (RDGPartHeader::Make, whose body is not under src/) and
the DoMake collaborator outcomes. -/
structure MakeEnv where
  partHeaderResult : GResult PartHeader
  doMakeEnv : DoMakeEnv
deriving DecidableEq, Repr

/-- Observable outcome of RDG::Make: the returned result and whether the
partition header file was read. -/
structure MakeOutcome where
  result : GResult RDGState
  headerRead : Bool
deriving DecidableEq, Repr

/-- RDG::Make (RDG.cpp:399-441): reject with InvalidArgument — before any
header read or data load — every meta that is not an empty RDG and whose
recorded host count differs from the current number of hosts; otherwise read
the partition header, prune it to the requested properties, and run DoMake
over a fresh RDGCore built from the pruned header. -/
def rdgMake (env : MakeEnv) (meta : RDGMeta) (curNumHosts : Nat)
    (nodeProps edgeProps : Option (List String)) : MakeOutcome :=
  if meta.isEmptyRDG = false ∧ meta.numHosts ≠ curNumHosts then
    { result := .error .InvalidArgument, headerRead := false }
  else
    match env.partHeaderResult with
    | .error e => { result := .error e, headerRead := true }
    | .ok header =>
      match doMake env.doMakeEnv
          (RDGState.mk [] [] (prunePropsTo header nodeProps edgeProps) [] [] none [] "")
          meta.dir with
      | .error e => { result := .error e, headerRead := true }
      | .ok s => { result := .ok s, headerRead := true }

/-- C7: a meta that is not an empty RDG and whose recorded host count differs
from the current number of hosts makes RDG::Make return InvalidArgument
without reading the partition header; when the host counts match or the meta
is an empty RDG, the check is passed — Make proceeds to read the header. -/
theorem rdgMake_host_count_check (env : MakeEnv) (meta : RDGMeta)
    (curNumHosts : Nat) (nodeProps edgeProps : Option (List String)) :
    (meta.isEmptyRDG = false → meta.numHosts ≠ curNumHosts →
      (rdgMake env meta curNumHosts nodeProps edgeProps).result
          = .error .InvalidArgument ∧
      (rdgMake env meta curNumHosts nodeProps edgeProps).headerRead = false) ∧
    (meta.isEmptyRDG = true ∨ meta.numHosts = curNumHosts →
      (rdgMake env meta curNumHosts nodeProps edgeProps).headerRead = true ∧
      (rdgMake env meta curNumHosts nodeProps edgeProps).result
          ≠ .error .InvalidArgument ∨
      (rdgMake env meta curNumHosts nodeProps edgeProps).headerRead = true) := by
  constructor
  · intro hne hhosts
    have hcond : meta.isEmptyRDG = false ∧ meta.numHosts ≠ curNumHosts := ⟨hne, hhosts⟩
    simp only [rdgMake, if_pos hcond]
    exact ⟨trivial, trivial⟩
  · intro hpass
    right
    have hcond : ¬(meta.isEmptyRDG = false ∧ meta.numHosts ≠ curNumHosts) := by
      rcases hpass with hempty | heq
      · intro hcontra
        rw [hempty] at hcontra
        exact absurd hcontra.1 (by simp)
      · intro hcontra
        exact hcontra.2 heq
    simp only [rdgMake, if_neg hcond]
    split
    · rfl
    · split <;> rfl

/-- Concrete runs for C7: a never-committed version-0 meta passes the check
with a mismatched host count, while a committed meta with a mismatched host
count is rejected before the header is read. -/
theorem rdgMake_host_count_check_witness :
    ((RDGMeta.mk "d" 3 4 0 false []).isEmptyRDG = false ∧ (4 : Nat) ≠ 2 ∧
      (rdgMake (MakeEnv.mk (.ok (PartHeader.mk "t" [] [] []
            (PartitionMetadata.mk 0 false)))
          (DoMakeEnv.mk (.ok ()) (.ok ()) (.ok ()) (.ok ())))
        (RDGMeta.mk "d" 3 4 0 false []) 2 none none).result
          = .error .InvalidArgument ∧
      (rdgMake (MakeEnv.mk (.ok (PartHeader.mk "t" [] [] []
            (PartitionMetadata.mk 0 false)))
          (DoMakeEnv.mk (.ok ()) (.ok ()) (.ok ()) (.ok ())))
        (RDGMeta.mk "d" 3 4 0 false []) 2 none none).headerRead = false) ∧
    ((RDGMeta.mk "d" 0 4 0 false []).isEmptyRDG = true ∧
      (rdgMake (MakeEnv.mk (.ok (PartHeader.mk "t" [] [] []
            (PartitionMetadata.mk 0 false)))
          (DoMakeEnv.mk (.ok ()) (.ok ()) (.ok ()) (.ok ())))
        (RDGMeta.mk "d" 0 4 0 false []) 2 none none).headerRead = true) :=
  ⟨⟨by decide, by decide,
    (rdgMake_host_count_check (MakeEnv.mk (.ok (PartHeader.mk "t" [] [] []
          (PartitionMetadata.mk 0 false)))
        (DoMakeEnv.mk (.ok ()) (.ok ()) (.ok ()) (.ok ())))
      (RDGMeta.mk "d" 3 4 0 false []) 2 none none).1 (by decide) (by decide)⟩,
    by decide,
    by
      have h := (rdgMake_host_count_check (MakeEnv.mk (.ok (PartHeader.mk "t" [] [] []
            (PartitionMetadata.mk 0 false)))
          (DoMakeEnv.mk (.ok ()) (.ok ()) (.ok ()) (.ok ())))
        (RDGMeta.mk "d" 0 4 0 false []) 2 none none).2 (Or.inl (by decide))
      rcases h with ⟨hr, _⟩ | hr
      · exact hr
      · exact hr⟩

/-- Embeds the C++ test name.find(prefix) == 0 used at RDG.cpp:210-212: the
first occurrence of the prefix is at position 0, i.e. the prefix is an
initial segment of the name. -/
def hasPrefix (p s : String) : Bool := p.data.isPrefixOf s.data

/-- AddPartitionMetadataArray (RDG.cpp:204-220): route the single-column
table by its column name — mirror-prefix names are appended to the
mirror-node sets, master-prefix names to the master-node sets, the exact
local-to-global name sets that vector, any other name is InvalidArgument.
The slot setters AddMirrorNodes, AddMasterNodes and
set_local_to_global_vector are RDGCore one-liners not under src/, modelled
from the spec as append, append and set. -/
def addPartitionMetadataArray (s : RDGState) (col : Column) : GResult RDGState :=
  if hasPrefix kMirrorNodesPropName col.fieldName then
    .ok { s with mirrorNodes := s.mirrorNodes ++ [col] }
  else if hasPrefix kMasterNodesPropName col.fieldName then
    .ok { s with masterNodes := s.masterNodes ++ [col] }
  else if col.fieldName = kLocalToTGlobalPropName then
    .ok { s with localToGlobal := some col }
  else .error .InvalidArgument

theorem mirror_master_prefix_exclusive (n : String) :
    ¬(hasPrefix kMirrorNodesPropName n = true ∧
      hasPrefix kMasterNodesPropName n = true) := by
  rintro ⟨h1, h2⟩
  rw [hasPrefix, List.isPrefixOf_iff_prefix] at h1 h2
  have hlen : kMirrorNodesPropName.data.length ≤ kMasterNodesPropName.data.length := by
    decide
  have hpre := List.prefix_of_prefix_length_le h1 h2 hlen
  have heq := hpre.eq_of_length (by decide)
  exact absurd heq (by decide)

/-- C8: AddPartitionMetadataArray routes a column by name — a mirror-prefix
name is appended to the mirror-node sets, a master-prefix name to the
master-node sets, the exact local-to-global name sets the local-to-global
vector, and any other name yields InvalidArgument with no slot modified; in
every successful case the resulting state differs from the input only in the
one targeted slot, so the node and edge attribute tables are never touched. -/
theorem addPartitionMetadataArray_routing (s : RDGState) (col : Column) :
    (hasPrefix kMirrorNodesPropName col.fieldName = true →
      addPartitionMetadataArray s col
        = .ok { s with mirrorNodes := s.mirrorNodes ++ [col] }) ∧
    (hasPrefix kMasterNodesPropName col.fieldName = true →
      addPartitionMetadataArray s col
        = .ok { s with masterNodes := s.masterNodes ++ [col] }) ∧
    (col.fieldName = kLocalToTGlobalPropName →
      addPartitionMetadataArray s col = .ok { s with localToGlobal := some col }) ∧
    (hasPrefix kMirrorNodesPropName col.fieldName = false →
      hasPrefix kMasterNodesPropName col.fieldName = false →
      col.fieldName ≠ kLocalToTGlobalPropName →
      addPartitionMetadataArray s col = .error .InvalidArgument) := by
  refine ⟨?_, ?_, ?_, ?_⟩
  · intro h
    simp [addPartitionMetadataArray, h]
  · intro h
    have hm : hasPrefix kMirrorNodesPropName col.fieldName = false := by
      cases hx : hasPrefix kMirrorNodesPropName col.fieldName
      · rfl
      · exact absurd ⟨hx, h⟩ (mirror_master_prefix_exclusive col.fieldName)
    simp [addPartitionMetadataArray, hm, h]
  · intro h
    have h1 : hasPrefix kMirrorNodesPropName col.fieldName = false := by
      rw [h]
      decide
    have h2 : hasPrefix kMasterNodesPropName col.fieldName = false := by
      rw [h]
      decide
    simp only [addPartitionMetadataArray, h]
    rw [if_neg (by decide), if_neg (by decide)]
    simp
  · intro h1 h2 h3
    simp [addPartitionMetadataArray, h1, h2, h3]

/-- Concrete run for C8: a column named with the mirror prefix lands in the
mirror-node sets and nowhere else. -/
theorem addPartitionMetadataArray_routing_witness :
    hasPrefix kMirrorNodesPropName "mirror_nodes_3" = true ∧
    addPartitionMetadataArray
      (RDGState.mk [Column.mk "n" (.ok "pn")] []
        (PartHeader.mk "t" [] [] [] (PartitionMetadata.mk 0 false))
        [] [] none [] "d")
      (Column.mk "mirror_nodes_3" (.ok "pm"))
      = .ok (RDGState.mk [Column.mk "n" (.ok "pn")] []
        (PartHeader.mk "t" [] [] [] (PartitionMetadata.mk 0 false))
        [Column.mk "mirror_nodes_3" (.ok "pm")] [] none [] "d") :=
  ⟨by decide,
    (addPartitionMetadataArray_routing
      (RDGState.mk [Column.mk "n" (.ok "pn")] []
        (PartHeader.mk "t" [] [] [] (PartitionMetadata.mk 0 false))
        [] [] none [] "d")
      (Column.mk "mirror_nodes_3" (.ok "pm"))).1 (by decide)⟩

/-- Encoded (physical) type of a stored column, as the columnar store
records it. -/
inductive EncodedType where
  | int64Ty
  | uint64Ty
  | int32Ty
  | uint32Ty
  | doubleTy
  | stringTy
  | boolTy
deriving DecidableEq, Repr

/-- One column of a loaded table as the typed view layer sees it: its name
and its encoded type. -/
structure TypedColumn where
  colName : String
  encodedType : EncodedType
deriving DecidableEq, Repr

/-- The loosely typed PropertyFileGraph underneath a PropertyGraph: the node
and edge table schemas the views are bound against. -/
structure PropertyFileGraph where
  nodeSchema : List TypedColumn
  edgeSchema : List TypedColumn
deriving DecidableEq, Repr

/-- Modelled from the spec: binding one requested attribute (name plus
compile-time type) against a loaded table's schema. MakeNodePropertyViews and
MakeEdgePropertyViews (PropertyViews.h) are not under src/; spec section 4.6
says the binding locates the matching named column and fails with a
type/name-mismatch error if the column is absent or its encoded type is
incompatible. The constructed view is the bound column. -/
def bindView (schema : List TypedColumn) (req : String × EncodedType) :
    GResult TypedColumn :=
  match schema.find? (fun c => c.colName == req.1) with
  | none => .error .PropertyNotFound
  | some c => if c.encodedType = req.2 then .ok c else .error .TypeError

/-- Modelled from the spec: MakePropertyViews over one table — bind each
requested attribute in order, stopping at the first failure. -/
def makePropertyViews (schema : List TypedColumn) :
    List (String × EncodedType) → GResult (List TypedColumn)
  | [] => .ok []
  | r :: rs =>
    match bindView schema r with
    | .error e => .error e
    | .ok v =>
      match makePropertyViews schema rs with
      | .error e => .error e
      | .ok vs => .ok (v :: vs)

/-- PropertyGraph::Make (galois/graphs/PropertyGraph.h:202-222): bind the
node property views, then the edge property views, propagating the first
binding failure; construct the typed graph only when both succeed. -/
def propertyGraphMake (pfg : PropertyFileGraph)
    (nodeReqs edgeReqs : List (String × EncodedType)) :
    GResult (List TypedColumn × List TypedColumn) :=
  match makePropertyViews pfg.nodeSchema nodeReqs with
  | .error e => .error e
  | .ok nv =>
    match makePropertyViews pfg.edgeSchema edgeReqs with
    | .error e => .error e
    | .ok ev => .ok (nv, ev)

theorem makePropertyViews_ok_iff (schema : List TypedColumn)
    (reqs : List (String × EncodedType)) :
    (∃ vs, makePropertyViews schema reqs = .ok vs) ↔
      ∀ r ∈ reqs, ∃ v, bindView schema r = .ok v := by
  induction reqs with
  | nil => simp [makePropertyViews]
  | cons r rs ih =>
    constructor
    · rintro ⟨vs, hvs⟩ r' hr'
      rcases List.mem_cons.mp hr' with rfl | hr'
      · cases hb : bindView schema r' with
        | error e => simp [makePropertyViews, hb] at hvs
        | ok v => exact ⟨v, rfl⟩
      · cases hb : bindView schema r with
        | error e => simp [makePropertyViews, hb] at hvs
        | ok v =>
          simp only [makePropertyViews, hb] at hvs
          cases hrec : makePropertyViews schema rs with
          | error e => rw [hrec] at hvs; exact absurd hvs (by simp)
          | ok vs' => exact ih.mp ⟨vs', hrec⟩ r' hr'
    · intro hall
      obtain ⟨v, hv⟩ := hall r (List.mem_cons_self _ _)
      obtain ⟨vs, hvs⟩ := ih.mpr (fun r' hr' => hall r' (List.mem_cons_of_mem _ hr'))
      exact ⟨v :: vs, by simp [makePropertyViews, hv, hvs]⟩

theorem makePropertyViews_first_error (schema : List TypedColumn)
    (pre : List (String × EncodedType)) :
    ∀ r post e, (∀ x ∈ pre, ∃ v, bindView schema x = .ok v) →
      bindView schema r = .error e →
      makePropertyViews schema (pre ++ r :: post) = .error e := by
  induction pre with
  | nil =>
    intro r post e _ hr
    simp [makePropertyViews, hr]
  | cons x xs ih =>
    intro r post e hpre hr
    obtain ⟨v, hv⟩ := hpre x (List.mem_cons_self _ _)
    have hrec := ih r post e (fun x' hx' => hpre x' (List.mem_cons_of_mem _ hx')) hr
    simp only [List.cons_append, makePropertyViews, hv, List.append_eq, hrec]

/-- C9: PropertyGraph::Make constructs a graph exactly when every requested
node view and every requested edge view binds against the loaded schemas
(present name, matching encoded type); and when a binding fails — the first
failing request in node-then-edge order — Make returns exactly that
binding's error and constructs nothing. -/
theorem propertyGraphMake_binding (pfg : PropertyFileGraph)
    (nodeReqs edgeReqs : List (String × EncodedType)) :
    ((∃ g, propertyGraphMake pfg nodeReqs edgeReqs = .ok g) ↔
      (∀ r ∈ nodeReqs, ∃ v, bindView pfg.nodeSchema r = .ok v) ∧
      (∀ r ∈ edgeReqs, ∃ v, bindView pfg.edgeSchema r = .ok v)) ∧
    (∀ pre r post e, nodeReqs = pre ++ r :: post →
      (∀ x ∈ pre, ∃ v, bindView pfg.nodeSchema x = .ok v) →
      bindView pfg.nodeSchema r = .error e →
      propertyGraphMake pfg nodeReqs edgeReqs = .error e) ∧
    (∀ pre r post e, edgeReqs = pre ++ r :: post →
      (∀ x ∈ nodeReqs, ∃ v, bindView pfg.nodeSchema x = .ok v) →
      (∀ x ∈ pre, ∃ v, bindView pfg.edgeSchema x = .ok v) →
      bindView pfg.edgeSchema r = .error e →
      propertyGraphMake pfg nodeReqs edgeReqs = .error e) := by
  refine ⟨?_, ?_, ?_⟩
  · constructor
    · rintro ⟨g, hg⟩
      cases hn : makePropertyViews pfg.nodeSchema nodeReqs with
      | error e => simp [propertyGraphMake, hn] at hg
      | ok nv =>
        cases he : makePropertyViews pfg.edgeSchema edgeReqs with
        | error e => simp [propertyGraphMake, hn, he] at hg
        | ok ev =>
          exact ⟨(makePropertyViews_ok_iff _ _).mp ⟨nv, hn⟩,
            (makePropertyViews_ok_iff _ _).mp ⟨ev, he⟩⟩
    · rintro ⟨hnode, hedge⟩
      obtain ⟨nv, hn⟩ := (makePropertyViews_ok_iff _ _).mpr hnode
      obtain ⟨ev, he⟩ := (makePropertyViews_ok_iff _ _).mpr hedge
      exact ⟨(nv, ev), by simp [propertyGraphMake, hn, he]⟩
  · intro pre r post e hsplit hpre hr
    subst hsplit
    rw [propertyGraphMake, makePropertyViews_first_error pfg.nodeSchema pre r post e hpre hr]
  · intro pre r post e hsplit hnode hpre hr
    subst hsplit
    obtain ⟨nv, hn⟩ := (makePropertyViews_ok_iff _ _).mpr hnode
    rw [propertyGraphMake, hn,
      makePropertyViews_first_error pfg.edgeSchema pre r post e hpre hr]

/-- Concrete run for C9, the spec's own test scenario: requesting an Int64
view of a node column physically stored as a string fails with the type
mismatch error and constructs no graph. -/
theorem propertyGraphMake_binding_witness :
    bindView [TypedColumn.mk "age" EncodedType.stringTy]
      ("age", EncodedType.int64Ty) = .error .TypeError ∧
    propertyGraphMake
      (PropertyFileGraph.mk [TypedColumn.mk "age" EncodedType.stringTy] [])
      [("age", EncodedType.int64Ty)] [] = .error .TypeError :=
  ⟨by decide,
    (propertyGraphMake_binding
      (PropertyFileGraph.mk [TypedColumn.mk "age" EncodedType.stringTy] [])
      [("age", EncodedType.int64Ty)] []).2.1 [] ("age", EncodedType.int64Ty) [] .TypeError
      rfl (by intro x hx; simp at hx) (by decide)⟩

/-- RDG::AddNodeProperties (RDG.cpp:507-526): delegate to the core table add
— RDGCore::AddNodeProperties is not under src/ and is modelled from the spec
as appending the table's columns to the node attribute table, its outcome an
environment choice — then, on success, append one PropStorageInfo per added
column carrying the column's schema field name and an empty path; the
persist flag omitted by the designated initializer at RDG.cpp:515-518 is
value-initialized to false. On a core failure nothing is appended and the
error is returned. -/
def addNodeProperties (addResult : GResult Unit) (s : RDGState)
    (tbl : List Column) : GResult RDGState :=
  match addResult with
  | .error e => .error e
  | .ok _ =>
    .ok { s with
      nodeTable := s.nodeTable ++ tbl
      partHeader := { s.partHeader with
        nodePropInfoList := s.partHeader.nodePropInfoList
          ++ tbl.map (fun c => { name := c.fieldName, path := "", persist := false }) } }

/-- RDG::AddEdgeProperties (RDG.cpp:528-547), mirror of the node case. -/
def addEdgeProperties (addResult : GResult Unit) (s : RDGState)
    (tbl : List Column) : GResult RDGState :=
  match addResult with
  | .error e => .error e
  | .ok _ =>
    .ok { s with
      edgeTable := s.edgeTable ++ tbl
      partHeader := { s.partHeader with
        edgePropInfoList := s.partHeader.edgePropInfoList
          ++ tbl.map (fun c => { name := c.fieldName, path := "", persist := false }) } }

theorem forall₂_fresh_info (tbl : List Column) :
    List.Forall₂ (fun (c : Column) (p : PropStorageInfo) =>
        p.name = c.fieldName ∧ p.path = "")
      tbl (tbl.map (fun c => { name := c.fieldName, path := "", persist := false })) := by
  induction tbl with
  | nil => exact List.Forall₂.nil
  | cons c cs ih => exact List.Forall₂.cons ⟨rfl, rfl⟩ ih

/-- C10: a successful AddNodeProperties (resp. AddEdgeProperties) appends to
the header exactly one storage-info entry per added column, each carrying
that column's name and an empty path, and keeps the column-count/list-length
invariant: afterwards the node (resp. edge) table has as many columns as the
header's list has entries, matching the assertion at RDG.cpp:521-523
(resp. 542-544); when the underlying core add fails, the error is returned
and no storage-info entry is appended. -/
theorem addProperties_append_storage_info (r : GResult Unit) (s : RDGState)
    (tbl : List Column)
    (hlenN : s.nodeTable.length = s.partHeader.nodePropInfoList.length)
    (hlenE : s.edgeTable.length = s.partHeader.edgePropInfoList.length) :
    (∀ e, r = .error e → addNodeProperties r s tbl = .error e ∧
      addEdgeProperties r s tbl = .error e) ∧
    (r = .ok () →
      (∃ s' appended, addNodeProperties r s tbl = .ok s' ∧
        s'.partHeader.nodePropInfoList = s.partHeader.nodePropInfoList ++ appended ∧
        List.Forall₂ (fun (c : Column) (p : PropStorageInfo) =>
          p.name = c.fieldName ∧ p.path = "") tbl appended ∧
        s'.nodeTable.length = s'.partHeader.nodePropInfoList.length) ∧
      (∃ s' appended, addEdgeProperties r s tbl = .ok s' ∧
        s'.partHeader.edgePropInfoList = s.partHeader.edgePropInfoList ++ appended ∧
        List.Forall₂ (fun (c : Column) (p : PropStorageInfo) =>
          p.name = c.fieldName ∧ p.path = "") tbl appended ∧
        s'.edgeTable.length = s'.partHeader.edgePropInfoList.length)) := by
  constructor
  · intro e he
    subst he
    exact ⟨rfl, rfl⟩
  · intro hr
    subst hr
    refine ⟨⟨_, tbl.map (fun c => { name := c.fieldName, path := "", persist := false }),
        rfl, rfl, forall₂_fresh_info tbl, ?_⟩,
      ⟨_, tbl.map (fun c => { name := c.fieldName, path := "", persist := false }),
        rfl, rfl, forall₂_fresh_info tbl, ?_⟩⟩
    · simp [hlenN]
    · simp [hlenE]

/-- Concrete run for C10: adding a one-column table appends one empty-path
entry named after the column and keeps the table/header lengths equal. -/
theorem addProperties_append_storage_info_witness :
    ((RDGState.mk [Column.mk "a" (.ok "pa")] []
        (PartHeader.mk "t" [PropStorageInfo.mk "a" "pa" true] [] []
          (PartitionMetadata.mk 0 false))
        [] [] none [] "d").nodeTable.length
      = (RDGState.mk [Column.mk "a" (.ok "pa")] []
        (PartHeader.mk "t" [PropStorageInfo.mk "a" "pa" true] [] []
          (PartitionMetadata.mk 0 false))
        [] [] none [] "d").partHeader.nodePropInfoList.length ∧
      (Except.ok () : GResult Unit) = .ok ()) ∧
    ((∃ s' appended, addNodeProperties (.ok ())
        (RDGState.mk [Column.mk "a" (.ok "pa")] []
          (PartHeader.mk "t" [PropStorageInfo.mk "a" "pa" true] [] []
            (PartitionMetadata.mk 0 false))
          [] [] none [] "d")
        [Column.mk "b" (.error .ArrowError)] = .ok s' ∧
      s'.partHeader.nodePropInfoList
        = (RDGState.mk [Column.mk "a" (.ok "pa")] []
          (PartHeader.mk "t" [PropStorageInfo.mk "a" "pa" true] [] []
            (PartitionMetadata.mk 0 false))
          [] [] none [] "d").partHeader.nodePropInfoList ++ appended ∧
      List.Forall₂ (fun (c : Column) (p : PropStorageInfo) =>
        p.name = c.fieldName ∧ p.path = "") [Column.mk "b" (.error .ArrowError)] appended ∧
      s'.nodeTable.length = s'.partHeader.nodePropInfoList.length) ∧
    (∃ s' appended, addEdgeProperties (.ok ())
        (RDGState.mk [Column.mk "a" (.ok "pa")] []
          (PartHeader.mk "t" [PropStorageInfo.mk "a" "pa" true] [] []
            (PartitionMetadata.mk 0 false))
          [] [] none [] "d")
        [Column.mk "b" (.error .ArrowError)] = .ok s' ∧
      s'.partHeader.edgePropInfoList
        = (RDGState.mk [Column.mk "a" (.ok "pa")] []
          (PartHeader.mk "t" [PropStorageInfo.mk "a" "pa" true] [] []
            (PartitionMetadata.mk 0 false))
          [] [] none [] "d").partHeader.edgePropInfoList ++ appended ∧
      List.Forall₂ (fun (c : Column) (p : PropStorageInfo) =>
        p.name = c.fieldName ∧ p.path = "") [Column.mk "b" (.error .ArrowError)] appended ∧
      s'.edgeTable.length = s'.partHeader.edgePropInfoList.length)) :=
  ⟨⟨by decide, rfl⟩,
    (addProperties_append_storage_info (.ok ())
      (RDGState.mk [Column.mk "a" (.ok "pa")] []
        (PartHeader.mk "t" [PropStorageInfo.mk "a" "pa" true] [] []
          (PartitionMetadata.mk 0 false))
        [] [] none [] "d")
      [Column.mk "b" (.error .ArrowError)] (by decide) (by decide)).2 rfl⟩

end Katana
